import Mathlib

/-!
Shallow embedding of the node-docs-compare tool (src/index.js): the module
tree normalizer (`createModuleForVersion`, `createMethod`, `flatten`), the
report padding helper (`pad`) and the diff loop of the main function.

JavaScript exceptions (assertion failures, TypeError on a null/undefined
property read, RangeError from a negative array length) are modelled with
`Except JsError`.  Absent JSON fields are modelled with `Option`.
-/

namespace NodeDocsCompare

/-- A thrown JavaScript error, tagged by its kind. -/
inductive JsError where
  | assertionError (message : String)
  | typeError (message : String)
  | rangeError (message : String)
deriving DecidableEq, Repr

/-- The optional `return` field of a signature element; its `type` field is
itself optional. -/
structure RawReturn where
  type : Option String
deriving DecidableEq, Repr

/-- One element of a raw method descriptor's `signatures` array.  `ret`
models the JSON field named `return` (a Lean keyword). -/
structure RawSignature where
  ret : Option RawReturn
deriving DecidableEq, Repr

/-- A raw method descriptor as found in the upstream JSON. -/
structure RawMethodDescriptor where
  name : String
  textRaw : String
  signatures : List RawSignature
deriving DecidableEq, Repr

/-- A raw class descriptor; its `methods` field may be absent. -/
structure RawClassDescriptor where
  name : String
  methods : Option (List RawMethodDescriptor)
deriving DecidableEq, Repr

/-- A raw module node: the nested structure handed to
`createModuleForVersion` as `moduleMetadata` (and, at the top level, the
fetched document).  Each of `methods`, `classes`, `modules` may be absent. -/
inductive RawModuleNode where
  | mk (name : String)
       (methods : Option (List RawMethodDescriptor))
       (classes : Option (List RawClassDescriptor))
       (modules : Option (List RawModuleNode))

def RawModuleNode.name : RawModuleNode → String
  | .mk n _ _ _ => n

def RawModuleNode.methods : RawModuleNode → Option (List RawMethodDescriptor)
  | .mk _ ms _ _ => ms

def RawModuleNode.classes : RawModuleNode → Option (List RawClassDescriptor)
  | .mk _ _ cs _ => cs

def RawModuleNode.modules : RawModuleNode → Option (List RawModuleNode)
  | .mk _ _ _ mods => mods

/-- Normalized method record produced by `createMethod`. -/
structure NormalizedMethod where
  name : String
  signature : String
  returnType : Option String
deriving DecidableEq, Repr

/-- Normalized class record. -/
structure NormalizedClass where
  name : String
  methods : List NormalizedMethod
deriving DecidableEq, Repr

/-- Normalized module record produced by `createModuleForVersion`. -/
structure NormalizedModule where
  name : String
  methods : List NormalizedMethod
  classes : List NormalizedClass
deriving DecidableEq, Repr

/-- A possibly nested array, as manipulated by the generic `flatten`
helper of the source (`Array.isArray` distinguishes nested arrays from
leaf elements). -/
inductive Arr (α : Type) where
  | atom (a : α)
  | arr (elems : List (Arr α))

mutual

/-- One step of `flatten`: a leaf contributes itself, a nested array its
deep flattening (`Array.isArray(curr) ? [...acc, ...flatten(curr)] :
[...acc, curr]`). -/
def flattenOne {α : Type} : Arr α → List α
  | Arr.atom a => [a]
  | Arr.arr l => flatten l

/-- `flatten = (a) => a.reduce((acc, curr) => Array.isArray(curr) ?
[...acc, ...flatten(curr)] : [...acc, curr], [])`: deep flattening.  The
JavaScript left fold appends each element's contribution in order, which
yields exactly this concatenation. -/
def flatten {α : Type} : List (Arr α) → List α
  | [] => []
  | x :: rest => flattenOne x ++ flatten rest

end

/-- JavaScript `value || null` applied to the (possibly absent) return
type string: `undefined` and the empty string are falsy and become null. -/
def orNull : Option String → Option String
  | some s => if s = "" then none else some s
  | none => none

/-- `List.map` for `Except`-returning functions, stopping at the first
error: models a JavaScript `.map` whose callback may throw. -/
def mapE {ε α β : Type} (f : α → Except ε β) : List α → Except ε (List β)
  | [] => Except.ok []
  | x :: xs =>
    match f x with
    | Except.error e => Except.error e
    | Except.ok y =>
      match mapE f xs with
      | Except.error e => Except.error e
      | Except.ok ys => Except.ok (y :: ys)

/-- `createMethod`: asserts exactly one signature element, then derives
`returnType` from `signatures[0].return && signatures[0].return.type`
followed by `|| null`. -/
def createMethod (m : RawMethodDescriptor) : Except JsError NormalizedMethod :=
  if m.signatures.length = 1 then
    let returnValue : Option String :=
      match m.signatures.head? with
      | some sig =>
        match sig.ret with
        | some r => r.type
        | none => none
      | none => none
    Except.ok { name := m.name, signature := m.textRaw,
                returnType := orNull returnValue }
  else
    Except.error (JsError.assertionError
      ("Found more signatures than expected for " ++ m.textRaw))

/-- The body of the class mapping inside `createModuleForVersion`: maps a
(kept) raw class's methods through `createMethod` and keeps its name. -/
def createClass (c : RawClassDescriptor) : Except JsError NormalizedClass :=
  match mapE createMethod (c.methods.getD []) with
  | Except.error e => Except.error e
  | Except.ok ms => Except.ok { name := c.name, methods := ms }

/-- The JavaScript read `m.methods` performed on each element of the
`modules` array: throws a TypeError when the element is `null` (a
descendant whose recursive expansion failed). -/
def memberMethods : Option NormalizedModule → Except JsError (List NormalizedMethod)
  | some m => Except.ok m.methods
  | none => Except.error (JsError.typeError "Cannot read properties of null reading methods")

/-- The JavaScript read `m.classes` performed on each element of the
`modules` array: throws a TypeError when the element is `null`. -/
def memberClasses : Option NormalizedModule → Except JsError (List NormalizedClass)
  | some m => Except.ok m.classes
  | none => Except.error (JsError.typeError "Cannot read properties of null reading classes")

/-- The `if (moduleMetadata.methods)` block: an absent `methods` field
leaves the initial empty list, a present one is mapped through
`createMethod`. -/
def ownMethods (methodsF : Option (List RawMethodDescriptor)) :
    Except JsError (List NormalizedMethod) :=
  match methodsF with
  | some ms => mapE createMethod ms
  | none => Except.ok []

/-- The `if (moduleMetadata.classes)` block: an absent `classes` field
leaves the initial empty list; a present one is filtered by
`(c) => c.methods` (the field must be present; an empty array is truthy)
and mapped through the class normalization. -/
def ownClasses (classesF : Option (List RawClassDescriptor)) :
    Except JsError (List NormalizedClass) :=
  match classesF with
  | some cs => mapE createClass (cs.filter (fun c => c.methods.isSome))
  | none => Except.ok []

/-- The non-recursive tail of `createModuleForVersion`: normalize own
methods, own classes (keeping only those whose `methods` field is
present), then build the result object whose `methods`/`classes` are
`flatten([methods, modules.map(m => m.methods)])` and
`flatten([classes, modules.map(m => m.classes)])` over the already
computed descendant results (`null` for a failed descendant). -/
def createModuleCore (name : String)
    (methodsF : Option (List RawMethodDescriptor))
    (classesF : Option (List RawClassDescriptor))
    (modules : List (Option NormalizedModule)) : Except JsError NormalizedModule :=
  match ownMethods methodsF with
  | Except.error e => Except.error e
  | Except.ok methods =>
    match ownClasses classesF with
    | Except.error e => Except.error e
    | Except.ok classes =>
      match mapE memberMethods modules with
      | Except.error e => Except.error e
      | Except.ok descMethods =>
        match mapE memberClasses modules with
        | Except.error e => Except.error e
        | Except.ok descClasses =>
          Except.ok {
            name := name,
            methods := flatten [Arr.arr (methods.map Arr.atom),
                                Arr.arr (descMethods.map (fun l => Arr.arr (l.map Arr.atom)))],
            classes := flatten [Arr.arr (classes.map Arr.atom),
                                Arr.arr (descClasses.map (fun l => Arr.arr (l.map Arr.atom)))] }

mutual

/-- `createModuleForVersion` with `moduleMetadata` supplied (every
recursive call): no fetch, no top-level checks. -/
def createModule : RawModuleNode → Except JsError NormalizedModule
  | RawModuleNode.mk name methodsF classesF none =>
      createModuleCore name methodsF classesF []
  | RawModuleNode.mk name methodsF classesF (some ms) =>
      createModuleCore name methodsF classesF (createModuleList ms)
termination_by structural node => node

/-- The `moduleMetadata.modules.map` with its per-descendant try/catch:
a descendant whose recursive expansion throws becomes `null` (the error
is logged and swallowed). -/
def createModuleList : List RawModuleNode → List (Option NormalizedModule)
  | [] => []
  | m :: rest =>
    (match createModule m with
     | Except.ok r => some r
     | Except.error _ => none) :: createModuleList rest
termination_by structural ms => ms

end

/-- `createModuleForVersion` on a top-level document (no pre-fetched
`moduleMetadata`): a document without a `modules` field yields `null`;
otherwise the `modules` list must contain exactly one entry, which
becomes the `moduleMetadata` for the shared body. -/
def createTopLevelModule (topLevelModule : RawModuleNode) :
    Except JsError (Option NormalizedModule) :=
  match topLevelModule.modules with
  | none => Except.ok none
  | some mods =>
    match mods with
    | [moduleMetadata] =>
      match createModule moduleMetadata with
      | Except.error e => Except.error e
      | Except.ok m => Except.ok (some m)
    | _ => Except.error (JsError.assertionError
        (topLevelModule.name ++ " should have one top level module"))

/-- The accumulation loop of the main function for one version: each
top-level document is normalized in order; a `null` result is skipped, a
thrown error aborts the whole run. -/
def buildModuleSet : List RawModuleNode → Except JsError (List NormalizedModule)
  | [] => Except.ok []
  | doc :: rest =>
    match createTopLevelModule doc with
    | Except.error e => Except.error e
    | Except.ok r =>
      match buildModuleSet rest with
      | Except.error e => Except.error e
      | Except.ok restModules =>
        match r with
        | some m => Except.ok (m :: restModules)
        | none => Except.ok restModules

/-- A string of `n` spaces: `Array(n).fill(' ').join('')`. -/
def spaces (n : Nat) : String := String.mk (List.replicate n ' ')

/-- `pad = (str, paddingLength = 24) => str + Array(paddingLength -
str.length).fill(' ').join('')` at the default padding length: a name
longer than 24 characters makes `Array` receive a negative length and
throw a RangeError. -/
def pad (str : String) : Except JsError String :=
  if str.length ≤ 24 then
    Except.ok (str ++ spaces (24 - str.length))
  else
    Except.error (JsError.rangeError "Invalid array length")

/-- The interpolation `${m.returnType}` of the per-method report line:
a null return type prints as "null". -/
def returnTypeText : Option String → String
  | some t => t
  | none => "null"

/-- The body of the diff loop for one `oldModule`: find the same-named
module of the newer set (reading `.methods` of `undefined` throws when
there is none), filter the newer module's methods to those whose name is
absent from the older module, and emit a header line plus one line per
new method exactly when the filtered list is non-empty. -/
def diffModule (newModules : List NormalizedModule) (oldModule : NormalizedModule) :
    Except JsError (List String) :=
  match newModules.find? (fun m => m.name == oldModule.name) with
  | none => Except.error (JsError.typeError "Cannot read properties of undefined reading methods")
  | some newModule =>
    let oldModuleMethodNames := oldModule.methods.map (fun m => m.name)
    let newMethods := newModule.methods.filter (fun m => !(oldModuleMethodNames.contains m.name))
    if newMethods.length = 0 then
      Except.ok []
    else
      match pad newModule.name with
      | Except.error e => Except.error e
      | Except.ok header =>
        Except.ok ((header ++ " " ++ toString newMethods.length ++ " new") ::
          newMethods.map (fun m => "- " ++ m.name ++ ": " ++ returnTypeText m.returnType))

/-- The diff loop `oldModules.forEach(...)`: output lines of every older
module's block in order; a thrown error aborts the run. -/
def diff (oldModules : List NormalizedModule) (newModules : List NormalizedModule) :
    Except JsError (List String) :=
  match oldModules with
  | [] => Except.ok []
  | om :: rest =>
    match diffModule newModules om with
    | Except.error e => Except.error e
    | Except.ok lines =>
      match diff rest newModules with
      | Except.error e => Except.error e
      | Except.ok restLines => Except.ok (lines ++ restLines)

/-- The whole run after argument parsing, with the fetched top-level
documents of each version as input: build both module sets, then diff.
Any uncaught error aborts with no diff output. -/
def run (olderDocs newerDocs : List RawModuleNode) : Except JsError (List String) :=
  match buildModuleSet olderDocs with
  | Except.error e => Except.error e
  | Except.ok oldModules =>
    match buildModuleSet newerDocs with
    | Except.error e => Except.error e
    | Except.ok newModules => diff oldModules newModules

/-! ### Predicates used to state schema-violation properties -/

/-- A raw method descriptor violating the one-signature assertion of
`createMethod`. -/
def badSignatureCount (m : RawMethodDescriptor) : Bool :=
  m.signatures.length != 1

/-- Some directly declared method descriptor of a node (own `methods`
list, or the method list of a class whose `methods` field is present)
violates the one-signature assertion. -/
def ownBadMethod (methodsF : Option (List RawMethodDescriptor))
    (classesF : Option (List RawClassDescriptor)) : Bool :=
  (methodsF.getD []).any badSignatureCount ||
  (classesF.getD []).any (fun c => (c.methods.getD []).any badSignatureCount)

mutual

/-- Some method descriptor reachable in the node (own methods, class
methods, or anywhere inside a descendant module) violates the
one-signature assertion. -/
def nodeHasBadMethod : RawModuleNode → Bool
  | RawModuleNode.mk _ methodsF classesF none => ownBadMethod methodsF classesF
  | RawModuleNode.mk _ methodsF classesF (some ms) =>
      ownBadMethod methodsF classesF || anyBadModule ms
termination_by structural node => node

/-- Some node of the list has a reachable bad method descriptor. -/
def anyBadModule : List RawModuleNode → Bool
  | [] => false
  | m :: rest => nodeHasBadMethod m || anyBadModule rest
termination_by structural ms => ms

end

/-! ### Concrete sample data used by the claim witnesses -/

/-- Sample: `fs.readFile()` with one signature and no declared return. -/
def readFileMethod : RawMethodDescriptor :=
  { name := "readFile", textRaw := "fs.readFile()", signatures := [{ ret := none }] }

/-- Sample: the single wrapped module of a well-formed top-level doc. -/
def fsInner : RawModuleNode :=
  RawModuleNode.mk "fs" (some [readFileMethod]) none none

/-- Sample: the normalization result of `fsInner`. -/
def fsInnerNormalized : NormalizedModule :=
  { name := "fs",
    methods := [{ name := "readFile", signature := "fs.readFile()", returnType := none }],
    classes := [] }

/-- Sample: a method descriptor with two signature elements (violates the
one-signature assertion). -/
def badSigMethod : RawMethodDescriptor :=
  { name := "bad", textRaw := "bad()", signatures := [{ ret := none }, { ret := none }] }

/-- Sample: a top-level doc whose wrapped module declares `badSigMethod`. -/
def badSigDoc : RawModuleNode :=
  RawModuleNode.mk "fs" none none
    (some [RawModuleNode.mk "fs" (some [badSigMethod]) none none])

/-- Sample: a top-level doc with no `modules` field (the C++ addons
special case). -/
def addonsDoc : RawModuleNode := RawModuleNode.mk "addons" none none none

/-- Sample: a well-formed top-level doc wrapping `fsInner`. -/
def fsDoc : RawModuleNode := RawModuleNode.mk "fs" none none (some [fsInner])

/-- Sample method `m0` with a declared return type. -/
def sampleM0 : RawMethodDescriptor :=
  { name := "m0", textRaw := "m0()", signatures := [{ ret := some { type := some "Buffer" } }] }

/-- Sample method `m1` without a `return` field. -/
def sampleM1 : RawMethodDescriptor :=
  { name := "m1", textRaw := "m1()", signatures := [{ ret := none }] }

/-- Sample method `m2` with an empty-string return type. -/
def sampleM2 : RawMethodDescriptor :=
  { name := "m2", textRaw := "m2()", signatures := [{ ret := some { type := some "" } }] }

/-- Sample descendant declaring `m1` directly. -/
def sampleChild1 : RawModuleNode := RawModuleNode.mk "c1" (some [sampleM1]) none none

/-- Sample descendant contributing `m2` only through deeper nesting. -/
def sampleChild2 : RawModuleNode :=
  RawModuleNode.mk "c2" none none
    (some [RawModuleNode.mk "c21" (some [sampleM2]) none none])

/-- Sample nested module node: own method `m0`, own class `K`, and the
two descendants above. -/
def sampleParent : RawModuleNode :=
  RawModuleNode.mk "p" (some [sampleM0])
    (some [{ name := "K", methods := some [sampleM1] }])
    (some [sampleChild1, sampleChild2])

/-- The normalization result of `sampleParent`: own members first, then
each descendant's flattened members in order. -/
def sampleParentNormalized : NormalizedModule :=
  { name := "p",
    methods := [{ name := "m0", signature := "m0()", returnType := some "Buffer" },
                { name := "m1", signature := "m1()", returnType := none },
                { name := "m2", signature := "m2()", returnType := none }],
    classes := [{ name := "K",
                  methods := [{ name := "m1", signature := "m1()", returnType := none }] }] }

/-- Sample normalized module of the older version. -/
def fsOld : NormalizedModule :=
  { name := "fs",
    methods := [{ name := "x", signature := "x()", returnType := none }],
    classes := [] }

/-- Sample normalized module of the newer version: one old and one new
method. -/
def fsNew : NormalizedModule :=
  { name := "fs",
    methods := [{ name := "x", signature := "x()", returnType := none },
                { name := "y", signature := "y()", returnType := some "Promise" }],
    classes := [] }

/-- The newly introduced method of `fsNew` relative to `fsOld`. -/
def yMethod : NormalizedMethod :=
  { name := "y", signature := "y()", returnType := some "Promise" }

/-- Sample normalized module present only in the newer set. -/
def onlyNewModule : NormalizedModule :=
  { name := "zlib",
    methods := [{ name := "z", signature := "z()", returnType := none }],
    classes := [] }

/-! ### Helper lemmas about `mapE` -/

theorem mapE_ok_of_forall {ε α β : Type} (f : α → Except ε β) :
    ∀ l : List α, (∀ x ∈ l, ∃ y, f x = Except.ok y) →
      ∃ ys, mapE f l = Except.ok ys
  | [], _ => ⟨[], rfl⟩
  | x :: xs, h => by
    obtain ⟨y, hy⟩ := h x (List.mem_cons_self x xs)
    obtain ⟨ys, hys⟩ :=
      mapE_ok_of_forall f xs (fun a ha => h a (List.mem_cons_of_mem x ha))
    exact ⟨y :: ys, by simp [mapE, hy, hys]⟩

theorem mapE_forall_of_ok {ε α β : Type} (f : α → Except ε β) :
    ∀ (l : List α) (ys : List β), mapE f l = Except.ok ys →
      ∀ x ∈ l, ∃ y, f x = Except.ok y
  | x :: xs, ys, h, a, ha => by
    simp only [mapE] at h
    cases hx : f x with
    | error e => rw [hx] at h; cases h
    | ok y =>
      rw [hx] at h
      cases hxs : mapE f xs with
      | error e => rw [hxs] at h; cases h
      | ok ys2 =>
        rcases List.mem_cons.mp ha with heq | hmem
        · exact heq ▸ ⟨y, hx⟩
        · exact mapE_forall_of_ok f xs ys2 hxs a hmem

theorem mapE_error_of_mem {ε α β : Type} (f : α → Except ε β) {x : α} {e : ε}
    (hx : f x = Except.error e) :
    ∀ l : List α, x ∈ l → ∃ e2, mapE f l = Except.error e2
  | a :: rest, hmem => by
    simp only [mapE]
    rcases List.mem_cons.mp hmem with heq | hmem2
    · subst heq; rw [hx]; exact ⟨e, rfl⟩
    · cases hfa : f a with
      | error e3 => exact ⟨e3, rfl⟩
      | ok y =>
        obtain ⟨e2, h2⟩ := mapE_error_of_mem f hx rest hmem2
        rw [h2]
        exact ⟨e2, rfl⟩

theorem mapE_names {ε α β γ : Type} (f : α → Except ε β) (g : β → γ) (p : α → γ)
    (hf : ∀ a b, f a = Except.ok b → g b = p a) :
    ∀ (l : List α) (ys : List β), mapE f l = Except.ok ys → ys.map g = l.map p
  | [], ys, h => by
    simp only [mapE] at h
    cases h
    rfl
  | x :: xs, ys, h => by
    simp only [mapE] at h
    cases hx : f x with
    | error e => rw [hx] at h; cases h
    | ok y =>
      rw [hx] at h
      cases hxs : mapE f xs with
      | error e => rw [hxs] at h; cases h
      | ok ys2 =>
        rw [hxs] at h
        cases h
        simp [List.map_cons, hf x y hx, mapE_names f g p hf xs ys2 hxs]

theorem mapE_memberMethods_map_some :
    ∀ ns : List NormalizedModule,
      mapE memberMethods (ns.map some) = Except.ok (ns.map NormalizedModule.methods)
  | [] => rfl
  | n :: rest => by
    simp [mapE, memberMethods, mapE_memberMethods_map_some rest]

theorem mapE_memberClasses_map_some :
    ∀ ns : List NormalizedModule,
      mapE memberClasses (ns.map some) = Except.ok (ns.map NormalizedModule.classes)
  | [] => rfl
  | n :: rest => by
    simp [mapE, memberClasses, mapE_memberClasses_map_some rest]

theorem mapE_memberMethods_error_of_none_mem (modules : List (Option NormalizedModule))
    (h : (none : Option NormalizedModule) ∈ modules) :
    ∃ e, mapE memberMethods modules = Except.error e :=
  mapE_error_of_mem memberMethods
    (rfl : memberMethods none =
      Except.error (JsError.typeError "Cannot read properties of null reading methods"))
    modules h

/-! ### Helper lemmas about `flatten` -/

theorem flatten_map_atom {α : Type} : ∀ l : List α, flatten (l.map Arr.atom) = l
  | [] => rfl
  | a :: rest => by simp [flatten, flattenOne, flatten_map_atom rest]

theorem flatten_map_arr_atom {α : Type} :
    ∀ xss : List (List α),
      flatten (xss.map (fun l => Arr.arr (l.map Arr.atom))) = xss.flatten
  | [] => rfl
  | xs :: rest => by
    simp [flatten, flattenOne, flatten_map_atom, flatten_map_arr_atom rest]

theorem spaces_length (n : Nat) : (spaces n).length = n := by
  simp [spaces, String.length_mk, List.length_replicate]

theorem flatten_own_desc {α : Type} (xs : List α) (xss : List (List α)) :
    flatten [Arr.arr (xs.map Arr.atom),
             Arr.arr (xss.map (fun l => Arr.arr (l.map Arr.atom)))] =
      xs ++ xss.flatten := by
  simp [flatten, flattenOne, flatten_map_atom, flatten_map_arr_atom]

/-! ### Helper lemmas about `createMethod`, `createClass` and
`createModuleCore` -/

theorem createMethod_ok_of_good (m : RawMethodDescriptor)
    (h : badSignatureCount m = false) : ∃ nm, createMethod m = Except.ok nm := by
  simp only [badSignatureCount, bne_eq_false_iff_eq] at h
  unfold createMethod
  rw [if_pos h]
  exact ⟨_, rfl⟩

theorem createMethod_error_of_bad (m : RawMethodDescriptor)
    (h : badSignatureCount m = true) :
    createMethod m = Except.error (JsError.assertionError
      ("Found more signatures than expected for " ++ m.textRaw)) := by
  simp only [badSignatureCount, bne_iff_ne, ne_eq] at h
  simp [createMethod, h]

theorem createClass_name (c : RawClassDescriptor) (y : NormalizedClass)
    (h : createClass c = Except.ok y) : y.name = c.name := by
  unfold createClass at h
  cases hm : mapE createMethod (c.methods.getD []) with
  | error e => rw [hm] at h; cases h
  | ok ms => rw [hm] at h; cases h; rfl

theorem createClass_ok_of_good (c : RawClassDescriptor)
    (h : (c.methods.getD []).any badSignatureCount = false) :
    ∃ y, createClass c = Except.ok y := by
  have hall : ∀ m ∈ c.methods.getD [], ∃ nm, createMethod m = Except.ok nm := by
    intro m hm
    exact createMethod_ok_of_good m
      (Bool.eq_false_iff.mpr (List.any_eq_false.mp h m hm))
  obtain ⟨ys, hys⟩ := mapE_ok_of_forall createMethod (c.methods.getD []) hall
  exact ⟨{ name := c.name, methods := ys }, by unfold createClass; rw [hys]⟩

theorem createClass_error_of_bad (c : RawClassDescriptor)
    (h : (c.methods.getD []).any badSignatureCount = true) :
    ∃ e, createClass c = Except.error e := by
  obtain ⟨m, hm, hbad⟩ := List.any_eq_true.mp h
  obtain ⟨e2, h2⟩ := mapE_error_of_mem createMethod
    (createMethod_error_of_bad m hbad) (c.methods.getD []) hm
  exact ⟨e2, by simp [createClass, h2]⟩

theorem ownMethods_ok_of_good (methodsF : Option (List RawMethodDescriptor))
    (h : (methodsF.getD []).any badSignatureCount = false) :
    ∃ ys, ownMethods methodsF = Except.ok ys := by
  cases methodsF with
  | none => exact ⟨[], rfl⟩
  | some ms =>
    simp only [Option.getD_some] at h
    obtain ⟨ys, hys⟩ := mapE_ok_of_forall createMethod ms (by
      intro m hm
      exact createMethod_ok_of_good m
        (Bool.eq_false_iff.mpr (List.any_eq_false.mp h m hm)))
    exact ⟨ys, by simp [ownMethods, hys]⟩

theorem ownMethods_error_of_bad (methodsF : Option (List RawMethodDescriptor))
    (h : (methodsF.getD []).any badSignatureCount = true) :
    ∃ e, ownMethods methodsF = Except.error e := by
  cases methodsF with
  | none => simp at h
  | some ms =>
    simp only [Option.getD_some] at h
    obtain ⟨m, hm, hbad⟩ := List.any_eq_true.mp h
    obtain ⟨e2, h2⟩ := mapE_error_of_mem createMethod
      (createMethod_error_of_bad m hbad) ms hm
    exact ⟨e2, by simp [ownMethods, h2]⟩

theorem ownClasses_ok_of_good (classesF : Option (List RawClassDescriptor))
    (h : (classesF.getD []).any
      (fun c => (c.methods.getD []).any badSignatureCount) = false) :
    ∃ ys, ownClasses classesF = Except.ok ys := by
  cases classesF with
  | none => exact ⟨[], rfl⟩
  | some cs =>
    simp only [Option.getD_some] at h
    obtain ⟨ys, hys⟩ := mapE_ok_of_forall createClass
      (cs.filter (fun c => c.methods.isSome)) (by
        intro c hc
        exact createClass_ok_of_good c
          (Bool.eq_false_iff.mpr (List.any_eq_false.mp h c (List.mem_of_mem_filter hc))))
    exact ⟨ys, by simp [ownClasses, hys]⟩

theorem ownClasses_error_of_bad (classesF : Option (List RawClassDescriptor))
    (h : (classesF.getD []).any
      (fun c => (c.methods.getD []).any badSignatureCount) = true) :
    ∃ e, ownClasses classesF = Except.error e := by
  cases classesF with
  | none => simp at h
  | some cs =>
    simp only [Option.getD_some] at h
    obtain ⟨c, hc, hbad⟩ := List.any_eq_true.mp h
    obtain ⟨e0, h0⟩ := createClass_error_of_bad c hbad
    have hmem : c ∈ cs.filter (fun c => c.methods.isSome) := by
      refine List.mem_filter.mpr ⟨hc, ?_⟩
      cases hcm : c.methods with
      | none => rw [hcm] at hbad; simp at hbad
      | some l => simp
    obtain ⟨e2, h2⟩ := mapE_error_of_mem createClass h0
      (cs.filter (fun c => c.methods.isSome)) hmem
    exact ⟨e2, by simp [ownClasses, h2]⟩

theorem createModuleCore_ok (name : String)
    (methodsF : Option (List RawMethodDescriptor))
    (classesF : Option (List RawClassDescriptor))
    (ns : List NormalizedModule)
    (methods : List NormalizedMethod) (classes : List NormalizedClass)
    (hm : ownMethods methodsF = Except.ok methods)
    (hc : ownClasses classesF = Except.ok classes) :
    createModuleCore name methodsF classesF (ns.map some) =
      Except.ok { name := name,
                  methods := methods ++ (ns.map NormalizedModule.methods).flatten,
                  classes := classes ++ (ns.map NormalizedModule.classes).flatten } := by
  unfold createModuleCore
  rw [hm, hc, mapE_memberMethods_map_some, mapE_memberClasses_map_some]
  simp only [flatten_own_desc]

theorem createModuleCore_ok_inversion (name : String)
    (methodsF : Option (List RawMethodDescriptor))
    (classesF : Option (List RawClassDescriptor))
    (modules : List (Option NormalizedModule)) (nm : NormalizedModule)
    (h : createModuleCore name methodsF classesF modules = Except.ok nm) :
    ∃ methods classes descMethods descClasses,
      ownMethods methodsF = Except.ok methods ∧
      ownClasses classesF = Except.ok classes ∧
      mapE memberMethods modules = Except.ok descMethods ∧
      mapE memberClasses modules = Except.ok descClasses ∧
      nm = { name := name,
             methods := methods ++ descMethods.flatten,
             classes := classes ++ descClasses.flatten } := by
  unfold createModuleCore at h
  cases h1 : ownMethods methodsF with
  | error e => rw [h1] at h; cases h
  | ok methods =>
    rw [h1] at h
    cases h2 : ownClasses classesF with
    | error e => rw [h2] at h; cases h
    | ok classes =>
      rw [h2] at h
      cases h3 : mapE memberMethods modules with
      | error e => rw [h3] at h; cases h
      | ok descMethods =>
        rw [h3] at h
        cases h4 : mapE memberClasses modules with
        | error e => rw [h4] at h; cases h
        | ok descClasses =>
          rw [h4] at h
          cases h
          exact ⟨methods, classes, descMethods, descClasses, rfl, rfl, rfl, rfl,
            by rw [flatten_own_desc, flatten_own_desc]⟩

theorem createModuleCore_error_of_none_mem (name : String)
    (methodsF : Option (List RawMethodDescriptor))
    (classesF : Option (List RawClassDescriptor))
    (modules : List (Option NormalizedModule))
    (h : (none : Option NormalizedModule) ∈ modules) :
    ∃ e, createModuleCore name methodsF classesF modules = Except.error e := by
  unfold createModuleCore
  cases h1 : ownMethods methodsF with
  | error e => exact ⟨e, rfl⟩
  | ok methods =>
    cases h2 : ownClasses classesF with
    | error e => exact ⟨e, rfl⟩
    | ok classes =>
      obtain ⟨e, he⟩ := mapE_memberMethods_error_of_none_mem modules h
      rw [he]
      exact ⟨e, rfl⟩

theorem createModuleCore_error_of_ownBad (name : String)
    (methodsF : Option (List RawMethodDescriptor))
    (classesF : Option (List RawClassDescriptor))
    (modules : List (Option NormalizedModule))
    (h : ownBadMethod methodsF classesF = true) :
    ∃ e, createModuleCore name methodsF classesF modules = Except.error e := by
  unfold createModuleCore
  unfold ownBadMethod at h
  rcases (Bool.or_eq_true _ _) ▸ h with hbm | hbc
  · obtain ⟨e, he⟩ := ownMethods_error_of_bad methodsF hbm
    rw [he]
    exact ⟨e, rfl⟩
  · cases h1 : ownMethods methodsF with
    | error e => exact ⟨e, rfl⟩
    | ok methods =>
      obtain ⟨e, he⟩ := ownClasses_error_of_bad classesF hbc
      rw [he]
      exact ⟨e, rfl⟩

theorem createModuleCore_ok_of_parts (name : String)
    (methodsF : Option (List RawMethodDescriptor))
    (classesF : Option (List RawClassDescriptor))
    (ns : List NormalizedModule)
    (h1 : ∃ ys, ownMethods methodsF = Except.ok ys)
    (h2 : ∃ cls, ownClasses classesF = Except.ok cls) :
    ∃ nm, createModuleCore name methodsF classesF (ns.map some) = Except.ok nm := by
  obtain ⟨ys, hys⟩ := h1
  obtain ⟨cls, hcls⟩ := h2
  exact ⟨_, createModuleCore_ok name methodsF classesF ns ys cls hys hcls⟩

/-! ### A reachable bad method descriptor makes normalization throw;
an all-good tree normalizes successfully -/

mutual

theorem createModule_error_of_bad :
    ∀ node : RawModuleNode, nodeHasBadMethod node = true →
      ∃ e, createModule node = Except.error e
  | RawModuleNode.mk n mf cf none, h => by
    simp only [nodeHasBadMethod] at h
    simp only [createModule]
    exact createModuleCore_error_of_ownBad n mf cf [] h
  | RawModuleNode.mk n mf cf (some ms), h => by
    simp only [nodeHasBadMethod] at h
    simp only [createModule]
    rcases (Bool.or_eq_true _ _) ▸ h with hb | hb
    · exact createModuleCore_error_of_ownBad n mf cf _ hb
    · exact createModuleCore_error_of_none_mem n mf cf _
        (createModuleList_none_mem_of_bad ms hb)
termination_by node => sizeOf node

theorem createModuleList_none_mem_of_bad :
    ∀ ms : List RawModuleNode, anyBadModule ms = true →
      (none : Option NormalizedModule) ∈ createModuleList ms
  | [], h => by simp [anyBadModule] at h
  | m :: rest, h => by
    simp only [anyBadModule] at h
    simp only [createModuleList]
    rcases (Bool.or_eq_true _ _) ▸ h with hb | hb
    · obtain ⟨e, he⟩ := createModule_error_of_bad m hb
      rw [he]
      exact List.mem_cons_self _ _
    · exact List.mem_cons_of_mem _ (createModuleList_none_mem_of_bad rest hb)
termination_by ms => sizeOf ms

end

mutual

theorem createModule_ok_of_good :
    ∀ node : RawModuleNode, nodeHasBadMethod node = false →
      ∃ nm, createModule node = Except.ok nm
  | RawModuleNode.mk n mf cf none, h => by
    simp only [nodeHasBadMethod] at h
    unfold ownBadMethod at h
    rcases Bool.or_eq_false_iff.mp h with ⟨h1, h2⟩
    simp only [createModule]
    simpa only [List.map_nil] using createModuleCore_ok_of_parts n mf cf []
      (ownMethods_ok_of_good mf h1) (ownClasses_ok_of_good cf h2)
  | RawModuleNode.mk n mf cf (some ms), h => by
    simp only [nodeHasBadMethod] at h
    rcases Bool.or_eq_false_iff.mp h with ⟨hown, hrest⟩
    obtain ⟨ns, hns⟩ := createModuleList_map_some_of_good ms hrest
    unfold ownBadMethod at hown
    rcases Bool.or_eq_false_iff.mp hown with ⟨h1, h2⟩
    simp only [createModule]
    rw [hns]
    exact createModuleCore_ok_of_parts n mf cf ns
      (ownMethods_ok_of_good mf h1) (ownClasses_ok_of_good cf h2)
termination_by node => sizeOf node

theorem createModuleList_map_some_of_good :
    ∀ ms : List RawModuleNode, anyBadModule ms = false →
      ∃ ns : List NormalizedModule, createModuleList ms = ns.map some
  | [], _ => ⟨[], rfl⟩
  | m :: rest, h => by
    simp only [anyBadModule] at h
    rcases Bool.or_eq_false_iff.mp h with ⟨h1, h2⟩
    obtain ⟨nm, hnm⟩ := createModule_ok_of_good m h1
    obtain ⟨ns, hns⟩ := createModuleList_map_some_of_good rest h2
    refine ⟨nm :: ns, ?_⟩
    simp only [createModuleList]
    rw [hnm, hns]
    rfl
termination_by ms => sizeOf ms

end

/-! ### Inversion: a successfully normalized node had fully successful
descendants -/

theorem createModuleList_ok_inversion :
    ∀ (ds : List RawModuleNode) (dm : List (List NormalizedMethod)),
      mapE memberMethods (createModuleList ds) = Except.ok dm →
      ∃ descs : List NormalizedModule,
        mapE createModule ds = Except.ok descs ∧
        createModuleList ds = descs.map some ∧
        dm = descs.map NormalizedModule.methods
  | [], dm, h => by
    refine ⟨[], rfl, rfl, ?_⟩
    simp only [createModuleList, mapE] at h
    cases h
    rfl
  | d :: rest, dm, h => by
    simp only [createModuleList, mapE] at h
    cases hd : createModule d with
    | error e => rw [hd] at h; simp [memberMethods] at h
    | ok r =>
      rw [hd] at h
      simp only [memberMethods] at h
      cases hrest : mapE memberMethods (createModuleList rest) with
      | error e => rw [hrest] at h; cases h
      | ok dmrest =>
        rw [hrest] at h
        cases h
        obtain ⟨descs, h1, h2, h3⟩ := createModuleList_ok_inversion rest dmrest hrest
        refine ⟨r :: descs, ?_, ?_, ?_⟩
        · simp only [mapE]
          rw [hd, h1]
        · simp only [createModuleList]
          rw [hd, h2]
          rfl
        · simp [h3]

/-! ### Claim theorems -/

/-- C1: the claim states that when recursive normalization of one
descendant throws, the failure is recovered and the parent still returns
the flattened members of the remaining descendants.  The code does catch
the descendant failure and stores `null`, but then unconditionally reads
`.methods` of every descendant result, so the parent itself throws a
TypeError on the `null` entry instead of completing: here a parent with
one good descendant and one descendant whose method has zero signature
elements fails with a TypeError. -/
theorem c1_descendant_failure_crashes_parent :
    createModule (RawModuleNode.mk "parent"
        (some [{ name := "own", textRaw := "own()", signatures := [{ ret := none }] }])
        none
        (some [RawModuleNode.mk "good"
                 (some [{ name := "g", textRaw := "g()", signatures := [{ ret := none }] }])
                 none none,
               RawModuleNode.mk "bad"
                 (some [{ name := "b", textRaw := "b()", signatures := [] }])
                 none none])) =
      Except.error (JsError.typeError "Cannot read properties of null reading methods") :=
  rfl

/-- C2 counterexample: a raw class whose `methods` field is present but
empty is NOT dropped — it survives normalization as a class with no
methods, because the JavaScript filter `(c) => c.methods` only tests
presence (an empty array is truthy). -/
theorem c2_counterexample_empty_methods_class_retained :
    createModule (RawModuleNode.mk "mod" none
        (some [{ name := "EmptyClass", methods := some [] }]) none) =
      Except.ok { name := "mod", methods := [],
                  classes := [{ name := "EmptyClass", methods := [] }] } :=
  rfl

/-- C2 amended: a raw class appears in the output `classes` list exactly
when its `methods` FIELD is present (even if the list is empty); only
classes lacking the field are dropped silently.  The output class names
are those of the kept raw classes, in order. -/
theorem c2_classes_retained_iff_methods_field (name : String)
    (methodsF : Option (List RawMethodDescriptor))
    (cs : List RawClassDescriptor) (nm : NormalizedModule)
    (h : createModule (RawModuleNode.mk name methodsF (some cs) none) = Except.ok nm) :
    nm.classes.map NormalizedClass.name =
      (cs.filter (fun c => c.methods.isSome)).map RawClassDescriptor.name := by
  simp only [createModule] at h
  obtain ⟨methods, classes, dm, dc, h1, h2, h3, h4, h5⟩ :=
    createModuleCore_ok_inversion name methodsF (some cs) [] nm h
  simp only [mapE] at h3 h4
  cases h3
  cases h4
  have hnames := mapE_names createClass NormalizedClass.name RawClassDescriptor.name
    createClass_name (cs.filter (fun c => c.methods.isSome)) classes
    (by simpa [ownClasses] using h2)
  subst h5
  simpa using hnames

/-- C2 witness: a module with one methodless-field class (dropped), one
empty-methods class (kept) and one single-method class (kept). -/
theorem c2_witness :
    ∃ nm, createModule (RawModuleNode.mk "mod" none
        (some [{ name := "NoField", methods := none },
               { name := "Empty", methods := some [] },
               { name := "One", methods :=
                  some [{ name := "f", textRaw := "f()", signatures := [{ ret := none }] }] }])
        none) = Except.ok nm ∧
      nm.classes.map NormalizedClass.name = ["Empty", "One"] := by
  refine ⟨_, rfl, ?_⟩
  have := c2_classes_retained_iff_methods_field "mod" none
    [{ name := "NoField", methods := none },
     { name := "Empty", methods := some [] },
     { name := "One", methods :=
        some [{ name := "f", textRaw := "f()", signatures := [{ ret := none }] }] }]
    _ rfl
  simpa using this

/-- C3 counterexample: a raw method whose single signature declares
`return.type` as the empty string normalizes to a `null` return type,
not to the empty string — `returnValue || null` treats `""` as falsy. -/
theorem c3_counterexample_empty_return_type :
    createMethod { name := "m", textRaw := "m()",
                   signatures := [{ ret := some { type := some "" } }] } =
      Except.ok { name := "m", signature := "m()", returnType := none } ∧
    (none : Option String) ≠ some "" :=
  ⟨rfl, by simp⟩

/-- C3 amended: for a raw method descriptor with exactly one signature
element, `name` is carried over, `textRaw` becomes `signature`, and
`returnType` is `signatures[0].return.type` when that field is present
and non-empty, and null when the `return` field or its `type` is absent
or the type string is empty. -/
theorem c3_single_signature_normalization (m : RawMethodDescriptor)
    (s : RawSignature) (h : m.signatures = [s]) :
    ∃ nm, createMethod m = Except.ok nm ∧
      nm.name = m.name ∧ nm.signature = m.textRaw ∧
      (∀ t : String, s.ret.bind RawReturn.type = some t → t ≠ "" →
        nm.returnType = some t) ∧
      ((s.ret.bind RawReturn.type = none ∨ s.ret.bind RawReturn.type = some "") →
        nm.returnType = none) := by
  unfold createMethod
  rw [h]
  refine ⟨_, rfl, rfl, rfl, ?_, ?_⟩
  · intro t ht hne
    cases hr : s.ret with
    | none => rw [hr] at ht; cases ht
    | some r =>
      rw [hr] at ht
      simp only [Option.some_bind] at ht
      simp [orNull, hr, ht, hne]
  · intro hcase
    cases hr : s.ret with
    | none => simp [orNull, hr]
    | some r =>
      rw [hr] at hcase
      rcases hcase with h0 | h0 <;> simp only [Option.some_bind] at h0 <;>
        simp [orNull, hr, h0]

/-- C3 witness: a method with one signature declaring a non-empty return
type normalizes with that return type carried over. -/
theorem c3_witness :
    ∃ nm, createMethod { name := "m", textRaw := "m(x)",
                         signatures := [{ ret := some { type := some "Promise" } }] } =
        Except.ok nm ∧
      nm.name = "m" ∧ nm.signature = "m(x)" ∧
      (∀ t : String,
        ({ ret := some { type := some "Promise" } } : RawSignature).ret.bind
          RawReturn.type = some t → t ≠ "" → nm.returnType = some t) ∧
      ((({ ret := some { type := some "Promise" } } : RawSignature).ret.bind
          RawReturn.type = none ∨
        ({ ret := some { type := some "Promise" } } : RawSignature).ret.bind
          RawReturn.type = some "") → nm.returnType = none) :=
  c3_single_signature_normalization _ _ rfl

/-- C10: the report padding helper returns the name right-padded with
spaces to exactly 24 characters when the name has at most 24 characters,
and throws a RangeError (negative array length) for longer names; in the
diff loop this aborts the emission of the whole block of a long-named
module with new methods. -/
theorem c10_pad_overflow (str : String) :
    (24 < str.length →
      pad str = Except.error (JsError.rangeError "Invalid array length")) ∧
    (str.length ≤ 24 →
      pad str = Except.ok (str ++ spaces (24 - str.length)) ∧
      (str ++ spaces (24 - str.length)).length = 24) ∧
    (∀ (newModules : List NormalizedModule) (om nm : NormalizedModule),
      newModules.find? (fun m => m.name == om.name) = some nm →
      nm.name = str → 24 < str.length →
      nm.methods.filter
        (fun m => !((om.methods.map (fun x => x.name)).contains m.name)) ≠ [] →
      ∃ e, diffModule newModules om = Except.error e) := by
  refine ⟨?_, ?_, ?_⟩
  · intro h
    unfold pad
    rw [if_neg (by omega)]
  · intro h
    unfold pad
    rw [if_pos h]
    refine ⟨rfl, ?_⟩
    rw [String.length_append]
    have : (spaces (24 - str.length)).length = 24 - str.length := spaces_length _
    omega
  · intro newModules om nm hfind hname hlen hne
    unfold diffModule
    rw [hfind]
    simp only []
    rw [if_neg (fun h0 => hne (List.length_eq_zero.mp h0))]
    unfold pad
    rw [hname, if_neg (by omega)]
    exact ⟨_, rfl⟩

/-- C10 witness: a 25-character name overflows the padding and aborts a
diff block; a short name is padded to 24 characters. -/
theorem c10_witness :
    pad "abcdefghijklmnopqrstuvwxy" =
      Except.error (JsError.rangeError "Invalid array length") ∧
    (pad "fs" = Except.ok ("fs" ++ spaces (24 - ("fs" : String).length)) ∧
      ("fs" ++ spaces (24 - ("fs" : String).length)).length = 24) ∧
    (∃ e, diffModule
        [{ name := "abcdefghijklmnopqrstuvwxy",
           methods := [{ name := "f", signature := "f()", returnType := none }],
           classes := [] }]
        { name := "abcdefghijklmnopqrstuvwxy", methods := [], classes := [] } =
      Except.error e) :=
  ⟨(c10_pad_overflow "abcdefghijklmnopqrstuvwxy").1 (by decide),
   (c10_pad_overflow "fs").2.1 (by decide),
   (c10_pad_overflow "abcdefghijklmnopqrstuvwxy").2.2
     [{ name := "abcdefghijklmnopqrstuvwxy",
        methods := [{ name := "f", signature := "f()", returnType := none }],
        classes := [] }]
     { name := "abcdefghijklmnopqrstuvwxy", methods := [], classes := [] }
     { name := "abcdefghijklmnopqrstuvwxy",
       methods := [{ name := "f", signature := "f()", returnType := none }],
       classes := [] }
     rfl rfl (by decide) (by decide)⟩

/-! ### Helper lemmas for the run-level and diff-level claims -/

theorem createTopLevelModule_error_of_bad (doc : RawModuleNode)
    (mods : List RawModuleNode) (hmods : doc.modules = some mods)
    (hbad : anyBadModule mods = true) :
    ∃ e, createTopLevelModule doc = Except.error e := by
  unfold createTopLevelModule
  rw [hmods]
  cases mods with
  | nil => exact ⟨_, rfl⟩
  | cons m rest =>
    cases rest with
    | nil =>
      have hm : nodeHasBadMethod m = true := by
        simpa [anyBadModule] using hbad
      obtain ⟨e, he⟩ := createModule_error_of_bad m hm
      exact ⟨e, by simp only [he]⟩
    | cons m2 rest2 => exact ⟨_, rfl⟩

theorem buildModuleSet_error_of_mem :
    ∀ (docs : List RawModuleNode) (doc : RawModuleNode), doc ∈ docs →
      (∃ e, createTopLevelModule doc = Except.error e) →
      ∃ e2, buildModuleSet docs = Except.error e2
  | [], doc, hmem, _ => absurd hmem (List.not_mem_nil doc)
  | d :: rest, doc, hmem, herr => by
    simp only [buildModuleSet]
    rcases List.mem_cons.mp hmem with heq | hmem2
    · subst heq
      obtain ⟨e, he⟩ := herr
      rw [he]
      exact ⟨e, rfl⟩
    · cases hd : createTopLevelModule d with
      | error e => exact ⟨e, rfl⟩
      | ok r =>
        obtain ⟨e2, h2⟩ := buildModuleSet_error_of_mem rest doc hmem2 herr
        rw [h2]
        exact ⟨e2, rfl⟩

theorem find?_append_singleton {α : Type} (p : α → Bool) (l : List α) (a : α)
    (h : p a = false) : List.find? p (l ++ [a]) = List.find? p l := by
  rw [List.find?_append]
  cases hf : List.find? p l with
  | some x => rfl
  | none => simp [List.find?, h]

theorem diffModule_append_extra (newModules : List NormalizedModule)
    (om extra : NormalizedModule) (h : om.name ≠ extra.name) :
    diffModule (newModules ++ [extra]) om = diffModule newModules om := by
  unfold diffModule
  rw [find?_append_singleton (fun m => m.name == om.name) newModules extra
    (beq_eq_false_iff_ne.mpr (fun heq => h heq.symm))]

/-- C4: a raw method descriptor with a signature count other than one,
reachable anywhere in a top-level document of either version (own
methods, class methods, or any descendant), makes the whole run fail
with an error: no diff output is produced.  (When the bad descriptor
sits inside a descendant, the failure surfaces as the parent's TypeError
on the swallowed `null`; at the top level it is the assertion itself —
either way the run aborts.) -/
theorem c4_bad_signature_count_fatal (olderDocs newerDocs : List RawModuleNode)
    (doc : RawModuleNode) (mods : List RawModuleNode)
    (hdoc : doc ∈ olderDocs ∨ doc ∈ newerDocs)
    (hmods : doc.modules = some mods)
    (hbad : anyBadModule mods = true) :
    ∃ e, run olderDocs newerDocs = Except.error e := by
  have herr := createTopLevelModule_error_of_bad doc mods hmods hbad
  unfold run
  rcases hdoc with hmem | hmem
  · obtain ⟨e2, h2⟩ := buildModuleSet_error_of_mem olderDocs doc hmem herr
    rw [h2]
    exact ⟨e2, rfl⟩
  · cases hold : buildModuleSet olderDocs with
    | error e => exact ⟨e, rfl⟩
    | ok oldMs =>
      obtain ⟨e2, h2⟩ := buildModuleSet_error_of_mem newerDocs doc hmem herr
      rw [h2]
      exact ⟨e2, rfl⟩

/-- C4 witness: a run whose older version has a module with a
two-signature method fails with an error. -/
theorem c4_witness : ∃ e, run [badSigDoc] [fsDoc] = Except.error e :=
  c4_bad_signature_count_fatal [badSigDoc] [fsDoc] badSigDoc
    [RawModuleNode.mk "fs" (some [badSigMethod]) none none]
    (Or.inl (List.mem_cons_self _ _)) rfl rfl

/-- C5: for an older module matched by name against the newer set, the
newly-introduced methods are exactly the newer module's methods whose
name does not occur among the older module's method names, and the
module's block (header line with padded name and count, then one line
per new method with its name and return type) is emitted exactly when
that list is non-empty.  (The padding requires the module name to fit in
24 characters; longer names are the subject of C10.) -/
theorem c5_new_methods_report (newModules : List NormalizedModule)
    (om nm : NormalizedModule) (newMethods : List NormalizedMethod)
    (hfind : newModules.find? (fun m => m.name == om.name) = some nm)
    (hnew : newMethods = nm.methods.filter
      (fun m => !((om.methods.map (fun x => x.name)).contains m.name)))
    (hlen : nm.name.length ≤ 24) :
    (newMethods = [] → diffModule newModules om = Except.ok []) ∧
    (newMethods ≠ [] → ∃ header, pad nm.name = Except.ok header ∧
      diffModule newModules om = Except.ok
        ((header ++ " " ++ toString newMethods.length ++ " new") ::
         newMethods.map (fun m => "- " ++ m.name ++ ": " ++ returnTypeText m.returnType))) := by
  have hdm : diffModule newModules om =
      if newMethods.length = 0 then Except.ok []
      else
        match pad nm.name with
        | Except.error e => Except.error e
        | Except.ok header =>
          Except.ok ((header ++ " " ++ toString newMethods.length ++ " new") ::
            newMethods.map (fun m => "- " ++ m.name ++ ": " ++ returnTypeText m.returnType)) := by
    unfold diffModule
    rw [hfind]
    subst hnew
    rfl
  constructor
  · intro hempty
    rw [hdm, if_pos (by rw [hempty]; rfl)]
  · intro hne
    have hlen0 : ¬newMethods.length = 0 := fun h0 => hne (List.length_eq_zero.mp h0)
    have hpad : pad nm.name = Except.ok (nm.name ++ spaces (24 - nm.name.length)) := by
      unfold pad
      rw [if_pos hlen]
    refine ⟨_, hpad, ?_⟩
    rw [hdm, if_neg hlen0, hpad]

/-- C5 witness: `fs` gained method `y`, so its block is one header line
and one method line; the empty case is vacuous here. -/
theorem c5_witness :
    ([yMethod] = [] → diffModule [fsNew] fsOld = Except.ok []) ∧
    ([yMethod] ≠ [] → ∃ header, pad fsNew.name = Except.ok header ∧
      diffModule [fsNew] fsOld = Except.ok
        ((header ++ " " ++ toString ([yMethod].length) ++ " new") ::
         [yMethod].map (fun m => "- " ++ m.name ++ ": " ++ returnTypeText m.returnType))) :=
  c5_new_methods_report [fsNew] fsOld fsNew [yMethod] rfl rfl (by decide)

/-- C6: the diff is asymmetric — appending to the newer set a module
whose name matches no older module changes nothing: the same lines are
emitted (none of them for the extra module) and the same error, if any,
occurs.  Only older modules drive the comparison. -/
theorem c6_diff_asymmetric (oldModules newModules : List NormalizedModule)
    (extra : NormalizedModule) (h : ∀ om ∈ oldModules, om.name ≠ extra.name) :
    diff oldModules (newModules ++ [extra]) = diff oldModules newModules := by
  induction oldModules with
  | nil => rfl
  | cons om rest ih =>
    simp only [diff]
    rw [diffModule_append_extra newModules om extra (h om (List.mem_cons_self _ _)),
        ih (fun x hx => h x (List.mem_cons_of_mem _ hx))]

/-- C6 witness: a `zlib` module present only in the newer set produces
no output and no crash — the diff is unchanged by its presence. -/
theorem c6_witness :
    diff [fsOld] ([fsNew] ++ [onlyNewModule]) = diff [fsOld] [fsNew] :=
  c6_diff_asymmetric [fsOld] [fsNew] onlyNewModule (by decide)

/-- C7: on a top-level document (with a `modules` field), a `modules`
list whose length differs from one is a fatal assertion failure, and a
singleton list hands its only entry to the shared normalization body;
the exactly-one constraint does not apply to recursive descendant
expansion — a nested node with any number of `modules` entries (all of
them well-formed) normalizes successfully. -/
theorem c7_top_level_single_module (doc : RawModuleNode)
    (mods : List RawModuleNode) (h : doc.modules = some mods) :
    (mods.length ≠ 1 →
      ∃ msg, createTopLevelModule doc = Except.error (JsError.assertionError msg)) ∧
    (∀ m, mods = [m] →
      createTopLevelModule doc =
        match createModule m with
        | Except.error e => Except.error e
        | Except.ok r => Except.ok (some r)) ∧
    (∀ (name : String) (methodsF : Option (List RawMethodDescriptor))
        (classesF : Option (List RawClassDescriptor)),
      nodeHasBadMethod (RawModuleNode.mk name methodsF classesF (some mods)) = false →
      ∃ nm, createModule (RawModuleNode.mk name methodsF classesF (some mods)) =
        Except.ok nm) := by
  refine ⟨?_, ?_, ?_⟩
  · intro hlen
    unfold createTopLevelModule
    rw [h]
    cases mods with
    | nil => exact ⟨_, rfl⟩
    | cons m rest =>
      cases rest with
      | nil => simp at hlen
      | cons m2 rest2 => exact ⟨_, rfl⟩
  · intro m hm
    subst hm
    unfold createTopLevelModule
    rw [h]
  · intro name methodsF classesF hgood
    exact createModule_ok_of_good _ hgood

/-- C7 witness: a doc wrapping two modules fails the assertion, a doc
wrapping exactly one normalizes it; a nested node with that same
two-element `modules` list is accepted during recursive expansion. -/
theorem c7_witness :
    (∃ msg, createTopLevelModule
        (RawModuleNode.mk "outer" none none (some [fsInner, fsInner])) =
      Except.error (JsError.assertionError msg)) ∧
    createTopLevelModule fsDoc = Except.ok (some fsInnerNormalized) ∧
    (∃ nm, createModule (RawModuleNode.mk "wrap" none none (some [fsInner, fsInner])) =
      Except.ok nm) := by
  refine ⟨?_, ?_, ?_⟩
  · exact (c7_top_level_single_module
      (RawModuleNode.mk "outer" none none (some [fsInner, fsInner]))
      [fsInner, fsInner] rfl).1 (by decide)
  · have h2 := (c7_top_level_single_module fsDoc [fsInner] rfl).2.1 fsInner rfl
    rw [h2]
    rfl
  · exact (c7_top_level_single_module
      (RawModuleNode.mk "outer" none none (some [fsInner, fsInner]))
      [fsInner, fsInner] rfl).2.2 "wrap" none none rfl

/-- C8: a top-level document lacking a `modules` field normalizes to
`null` instead of throwing, and the main loop drops it from the module
set — the surrounding documents are processed as if it were absent. -/
theorem c8_missing_modules_field_skipped (doc : RawModuleNode)
    (pre post : List RawModuleNode) (h : doc.modules = none) :
    createTopLevelModule doc = Except.ok none ∧
    buildModuleSet (pre ++ doc :: post) = buildModuleSet (pre ++ post) := by
  have htop : createTopLevelModule doc = Except.ok none := by
    unfold createTopLevelModule
    rw [h]
  refine ⟨htop, ?_⟩
  induction pre with
  | nil =>
    simp only [List.nil_append, buildModuleSet]
    rw [htop]
    cases hb : buildModuleSet post with
    | error e => rfl
    | ok r => rfl
  | cons p rest ih =>
    simp only [List.cons_append, buildModuleSet, List.append_eq]
    rw [ih]

/-- C8 witness: the addons doc (no `modules` field) yields `null` and is
skipped between two well-formed docs. -/
theorem c8_witness :
    createTopLevelModule addonsDoc = Except.ok none ∧
    buildModuleSet ([fsDoc] ++ addonsDoc :: [fsDoc]) = buildModuleSet ([fsDoc] ++ [fsDoc]) :=
  c8_missing_modules_field_skipped addonsDoc [fsDoc] [fsDoc] rfl

/-- C9: a successfully normalized module's `methods` and `classes` are
the concatenation of its own normalized members followed by each
descendant's (recursively already flattened) members in descendant-list
order. -/
theorem c9_flattening_order (name : String)
    (methodsF : Option (List RawMethodDescriptor))
    (classesF : Option (List RawClassDescriptor))
    (ds : List RawModuleNode) (nm : NormalizedModule)
    (h : createModule (RawModuleNode.mk name methodsF classesF (some ds)) = Except.ok nm) :
    ∃ ownMs ownCs descs,
      ownMethods methodsF = Except.ok ownMs ∧
      ownClasses classesF = Except.ok ownCs ∧
      mapE createModule ds = Except.ok descs ∧
      nm.name = name ∧
      nm.methods = ownMs ++ (descs.map NormalizedModule.methods).flatten ∧
      nm.classes = ownCs ++ (descs.map NormalizedModule.classes).flatten := by
  simp only [createModule] at h
  obtain ⟨ms, cls, dm, dc, h1, h2, h3, h4, h5⟩ :=
    createModuleCore_ok_inversion name methodsF classesF (createModuleList ds) nm h
  obtain ⟨descs, hd1, hd2, hd3⟩ := createModuleList_ok_inversion ds dm h3
  have hdc : dc = descs.map NormalizedModule.classes := by
    rw [hd2, mapE_memberClasses_map_some] at h4
    injection h4 with h4
    exact h4.symm
  subst h5
  exact ⟨ms, cls, descs, h1, h2, hd1, rfl, by rw [hd3], by rw [hdc]⟩

/-- C9 witness: `sampleParent` (own method `m0`, own class `K`, a
descendant declaring `m1` and a descendant contributing `m2` through
deeper nesting) flattens to own members first, then the descendants'
members in order. -/
theorem c9_witness :
    ∃ ownMs ownCs descs,
      ownMethods (some [sampleM0]) = Except.ok ownMs ∧
      ownClasses (some [{ name := "K", methods := some [sampleM1] }]) = Except.ok ownCs ∧
      mapE createModule [sampleChild1, sampleChild2] = Except.ok descs ∧
      sampleParentNormalized.name = "p" ∧
      sampleParentNormalized.methods =
        ownMs ++ (descs.map NormalizedModule.methods).flatten ∧
      sampleParentNormalized.classes =
        ownCs ++ (descs.map NormalizedModule.classes).flatten :=
  c9_flattening_order "p" (some [sampleM0])
    (some [{ name := "K", methods := some [sampleM1] }])
    [sampleChild1, sampleChild2] sampleParentNormalized rfl

end NodeDocsCompare
